import Mathlib

/-!
Verification of the tiered cache-aside fetch orchestrator of DailyHotApi-go.

Shallow embedding of the Go sources:
* `internal/cache/cache.go`    — tiered cache `Manager` (`Get` / `Set`)
* `internal/service/fetcher.go`— fetch orchestrator `Fetcher.GetData`
* `internal/routes/retry.go`   — retry executor `FetchWithRetry`
* `internal/pool` (object pool)— `ObjectPool` acquire/release
* `pkg/utils/wbi.go`           — warmup task `warmUpCacheAsync`
* `internal/http/client.go`    — HTTP client construction `NewClient`

Modelling conventions:
* Durations and instants are abstract `Nat` ticks.
* Go byte slices holding serialized record lists are `Bytes := List Nat`.
* `encoding/json` (external library) is modelled by an injective, executable
  encoder/decoder pair `jsonMarshal` / `jsonUnmarshal`; only injectivity and
  the round-trip property of the real library are used.
* The BigCache library (L1) is modelled from its documented contract: entries
  are written without a per-entry TTL and expire once their age reaches the
  global `LifeWindow`; a write can fail (entry too large), modelled by the
  `maxEntrySize` bound.  The Redis client (L2) is a key/value store with a
  per-key absolute expiry instant.
* Go errors built with `fmt.Errorf` and `%w` are the inductive `GoError`;
  wrapping a `nil` error is `GoError.wrappedNil msg`.
-/

/-- Serialized payloads (Go `[]byte`). -/
abbrev Bytes := List Nat

/-- Length-prefixed encoding of a Go string into payload bytes. -/
def encStr (s : String) : Bytes :=
  (s.toList.map Char.toNat).length :: s.toList.map Char.toNat

/-- Decode a length-prefixed string, returning the remaining bytes. -/
def decStr : Bytes → Option (String × Bytes)
  | [] => none
  | n :: rest =>
    if n ≤ rest.length then
      some (String.mk ((rest.take n).map Char.ofNat), rest.drop n)
    else none

theorem String.mk_toList (s : String) : String.mk s.toList = s := rfl

@[simp] theorem decStr_encStr (s : String) (r : Bytes) :
    decStr (encStr s ++ r) = some (s, r) := by
  simp only [encStr, decStr, List.cons_append]
  rw [if_pos (by simp)]
  rw [List.take_left, List.drop_left, List.map_map,
    show (Char.ofNat ∘ Char.toNat) = id from funext fun c => Char.ofNat_toNat c,
    List.map_id]
  exact congrArg (fun t => some (t, r)) (String.mk_toList s)

/-- Encoding of the `hot` field (`interface\x7b\x7d` holding number or null). -/
def encOptNat : Option Nat → Bytes
  | none => [0]
  | some n => [1, n]

/-- Decode an optional number field. -/
def decOptNat : Bytes → Option (Option Nat × Bytes)
  | 0 :: rest => some (none, rest)
  | 1 :: n :: rest => some (some n, rest)
  | _ => none

@[simp] theorem decOptNat_encOptNat (o : Option Nat) (r : Bytes) :
    decOptNat (encOptNat o ++ r) = some (o, r) := by
  cases o <;> rfl

/-- Encoding of the `timestamp` field (number or string). -/
def encTimestamp : Option (Nat ⊕ String) → Bytes
  | none => [0]
  | some (.inl n) => [1, n]
  | some (.inr s) => 2 :: encStr s

/-- Decode the `timestamp` field. -/
def decTimestamp : Bytes → Option (Option (Nat ⊕ String) × Bytes)
  | 0 :: rest => some (none, rest)
  | 1 :: n :: rest => some (some (.inl n), rest)
  | 2 :: rest => (decStr rest).bind fun p => some (some (.inr p.1), p.2)
  | _ => none

@[simp] theorem decTimestamp_encTimestamp (o : Option (Nat ⊕ String)) (r : Bytes) :
    decTimestamp (encTimestamp o ++ r) = some (o, r) := by
  match o with
  | none => rfl
  | some (.inl n) => rfl
  | some (.inr s) =>
    show decTimestamp (2 :: (encStr s ++ r)) = _
    simp [decTimestamp]

/-- One normalized record (`models.HotData`); the two `interface\x7b\x7d`
fields are modelled per their documented shapes (number-or-null,
number-or-string). -/
structure HotData where
  id : String
  title : String
  desc : String
  cover : String
  author : String
  hot : Option Nat
  timestamp : Option (Nat ⊕ String)
  url : String
  mobileURL : String
deriving Repr, DecidableEq

/-- Field-by-field encoding of one record. -/
def encHotData (h : HotData) : Bytes :=
  encStr h.id ++ encStr h.title ++ encStr h.desc ++ encStr h.cover ++
  encStr h.author ++ encOptNat h.hot ++ encTimestamp h.timestamp ++
  encStr h.url ++ encStr h.mobileURL

/-- Decode one record, returning the remaining bytes. -/
def decHotData (b : Bytes) : Option (HotData × Bytes) := do
  let p1 ← decStr b
  let p2 ← decStr p1.2
  let p3 ← decStr p2.2
  let p4 ← decStr p3.2
  let p5 ← decStr p4.2
  let p6 ← decOptNat p5.2
  let p7 ← decTimestamp p6.2
  let p8 ← decStr p7.2
  let p9 ← decStr p8.2
  return (⟨p1.1, p2.1, p3.1, p4.1, p5.1, p6.1, p7.1, p8.1, p9.1⟩, p9.2)

@[simp] theorem decHotData_encHotData (h : HotData) (r : Bytes) :
    decHotData (encHotData h ++ r) = some (h, r) := by
  simp [encHotData, decHotData, List.append_assoc]

/-- Decode a fixed count of records. -/
def decHotDataList : Nat → Bytes → Option (List HotData × Bytes)
  | 0, b => some ([], b)
  | n + 1, b =>
    (decHotData b).bind fun p =>
      (decHotDataList n p.2).map fun q => (p.1 :: q.1, q.2)

@[simp] theorem decHotDataList_enc (l : List HotData) (r : Bytes) :
    decHotDataList l.length ((l.map encHotData).flatten ++ r) = some (l, r) := by
  induction l generalizing r with
  | nil => rfl
  | cons h t ih => simp [decHotDataList, List.append_assoc, ih]

/-- Model of `json.Marshal` on a record list: count followed by the
concatenated record encodings. -/
def jsonMarshal (l : List HotData) : Bytes :=
  l.length :: (l.map encHotData).flatten

/-- Model of `json.Unmarshal` into `[]models.HotData`; fails on malformed or
trailing bytes. -/
def jsonUnmarshal (b : Bytes) : Option (List HotData) :=
  match b with
  | [] => none
  | n :: rest =>
    match decHotDataList n rest with
    | some (l, []) => some l
    | _ => none

@[simp] theorem jsonUnmarshal_jsonMarshal (l : List HotData) :
    jsonUnmarshal (jsonMarshal l) = some l := by
  have h := decHotDataList_enc l []
  simp only [List.append_nil] at h
  simp [jsonMarshal, jsonUnmarshal, h]

/-- Go error values: a plain message, a `fmt.Errorf` `%w` wrap of another
error, or a `%w` wrap of a `nil` error (whose `Unwrap` is `nil`). -/
inductive GoError where
  | simple (msg : String)
  | wrapped (ctx : String) (inner : GoError)
  | wrappedNil (ctx : String)
deriving Repr, DecidableEq

/-- `fmt.Errorf(ctx+": %w", inner)` where `inner` may be a `nil` error. -/
def GoError.wrapOpt (ctx : String) : Option GoError → GoError
  | some e => .wrapped ctx e
  | none => .wrappedNil ctx

/-- Model of `errors.Unwrap`. -/
def GoError.unwrap : GoError → Option GoError
  | .wrapped _ e => some e
  | _ => none

/-- Association-list lookup keyed by string (first binding wins, so a `cons`
models an overwrite). -/
def alookup {A : Type} (key : String) : List (String × A) → Option A
  | [] => none
  | (k, v) :: rest => if k = key then some v else alookup key rest

@[simp] theorem alookup_nil {A : Type} (key : String) :
    alookup key ([] : List (String × A)) = none := rfl

@[simp] theorem alookup_cons {A : Type} (key k : String) (v : A)
    (rest : List (String × A)) :
    alookup key ((k, v) :: rest) =
      if k = key then some v else alookup key rest := rfl

/-- L1 tier: model of the BigCache instance built by `Manager.initL1Cache`.
`lifeWindow` is the global `LifeWindow` (set to `cfg.Cache.DefaultExpire`);
entries carry their write instant, not a per-entry TTL — `bigcache.Set`
takes no TTL argument.  `maxEntrySize` bounds a storable entry; an larger
write fails (models BigCache's entry-too-big `Set` error). -/
structure L1Cache where
  lifeWindow : Nat
  maxEntrySize : Nat
  entries : List (String × (Bytes × Nat))
deriving Repr, DecidableEq

namespace L1Cache

/-- `bigcache.Get`: an entry is returned while its age is below the global
life window; once the age reaches `lifeWindow` the entry is expired. -/
def get (c : L1Cache) (now : Nat) (key : String) : Option Bytes :=
  match alookup key c.entries with
  | some (v, writtenAt) => if now < writtenAt + c.lifeWindow then some v else none
  | none => none

/-- `bigcache.Set`: stores the value stamped with the write instant; no TTL
parameter exists.  Fails (returns `none`) when the entry exceeds the size
bound. -/
def set (c : L1Cache) (now : Nat) (key : String) (value : Bytes) :
    Option L1Cache :=
  if value.length ≤ c.maxEntrySize then
    some { c with entries := (key, (value, now)) :: c.entries }
  else
    none

end L1Cache

/-- L2 tier: model of the Redis client.  Entries carry an absolute expiry
instant; `SET key value EX ttl` stores `now + ttl`. -/
structure RedisClient where
  entries : List (String × (Bytes × Nat))
deriving Repr, DecidableEq

namespace RedisClient

/-- `GET key` (`.Bytes()`): a key is visible strictly before its expiry
instant; afterwards Redis reports `redis.Nil`. -/
def get (c : RedisClient) (now : Nat) (key : String) : Option Bytes :=
  match alookup key c.entries with
  | some (v, expireAt) => if now < expireAt then some v else none
  | none => none

/-- `SET key value EX expiration`. -/
def set (c : RedisClient) (now : Nat) (key : String) (value : Bytes)
    (expiration : Nat) : RedisClient :=
  { c with entries := (key, (value, now + expiration)) :: c.entries }

end RedisClient

/-- Tiered cache manager (`cache.Manager`): the two tiers, their enabled
flags, and the configured default expiry (`cfg.Cache.DefaultExpire`). -/
structure Manager where
  l1Cache : L1Cache
  l2Cache : RedisClient
  cfgDefaultExpire : Nat
  l1Enabled : Bool
  l2Enabled : Bool
deriving Repr, DecidableEq

deriving instance DecidableEq for Except

/-- Result of `Manager.Get`: the returned value or miss error, the manager
after the read (promotion may populate L1), and whether L2 was consulted. -/
structure GetOut where
  res : Except String Bytes
  mgr : Manager
  l2Read : Bool
deriving Repr, DecidableEq

namespace Manager

/-- The L2 leg of `Manager.Get`: on an L2 hit the value is promoted into L1
best-effort (`_ = m.l1Cache.Set(key, data)` discards a failure); on a double
miss the formatted miss error of the source is returned. -/
def GetL2 (m : Manager) (now : Nat) (key : String) : GetOut :=
  if m.l2Enabled then
    match m.l2Cache.get now key with
    | some data =>
      let l1' :=
        if m.l1Enabled then (m.l1Cache.set now key data).getD m.l1Cache
        else m.l1Cache
      ⟨.ok data, { m with l1Cache := l1' }, true⟩
    | none => ⟨.error ("缓存未命中: " ++ key), m, true⟩
  else
    ⟨.error ("缓存未命中: " ++ key), m, false⟩

/-- `Manager.Get`: try L1 first (when enabled) and return immediately on a
hit; otherwise fall through to the L2 leg. -/
def Get (m : Manager) (now : Nat) (key : String) : GetOut :=
  if m.l1Enabled then
    match m.l1Cache.get now key with
    | some data => ⟨.ok data, m, false⟩
    | none => m.GetL2 now key
  else
    m.GetL2 now key

/-- `Manager.Set`: substitute the configured default when `expiration` is
zero, then write each enabled tier independently; an L1 write failure is
logged and swallowed (the tier is left unchanged).  The Go method always
returns `nil`. -/
def Set (m : Manager) (now : Nat) (key : String) (value : Bytes)
    (expiration : Nat) : Manager :=
  let expiration := if expiration = 0 then m.cfgDefaultExpire else expiration
  let l1' :=
    if m.l1Enabled then (m.l1Cache.set now key value).getD m.l1Cache
    else m.l1Cache
  let l2' :=
    if m.l2Enabled then m.l2Cache.set now key value expiration
    else m.l2Cache
  { m with l1Cache := l1', l2Cache := l2' }

end Manager

/-- Response envelope (`models.Response`); `updateTime` abstracts the
RFC3339 timestamp to the construction instant. -/
structure Response where
  code : Nat
  message : String
  name : String
  title : String
  typ : String
  description : String
  link : String
  updateTime : Nat
  total : Nat
  fromCache : Bool
  data : List HotData
deriving Repr, DecidableEq

/-- `models.SuccessResponse`. -/
def SuccessResponse (name title typeStr description link : String)
    (data : List HotData) (fromCache : Bool) (now : Nat) : Response :=
  { code := 200, message := "success", name := name, title := title,
    typ := typeStr, description := description, link := link,
    updateTime := now, total := data.length, fromCache := fromCache,
    data := data }

/-- `models.SimpleSuccessResponse`. -/
def SimpleSuccessResponse (name typeStr : String) (data : List HotData)
    (fromCache : Bool) (now : Nat) : Response :=
  SuccessResponse name name typeStr "" "" data fromCache now

/-- Result of one `Fetcher.GetData` call, instrumented with the number of
data-source invocations and whether the write-back `cache.Set` was called. -/
structure GetDataResult where
  resp : Option Response
  err : Option GoError
  mgr : Manager
  fetchCalls : Nat
  setCalled : Bool
deriving Repr, DecidableEq

/-- The miss leg of `Fetcher.GetData`: invoke the data source; on error wrap
it with the platform name and return; on success write back through the
tiered cache only when the list is non-empty. -/
def GetDataFetchPath (m : Manager) (now : Nat) (cacheKey platformName subtitle : String)
    (cacheDuration : Nat) (fetchFunc : Unit → Except GoError (List HotData)) :
    GetDataResult :=
  match fetchFunc () with
  | .error e =>
    ⟨none, some (.wrapped ("获取 " ++ platformName ++ " 数据失败") e), m, 1, false⟩
  | .ok hotDataList =>
    if 0 < hotDataList.length then
      let dataBytes := jsonMarshal hotDataList
      let m' := m.Set now cacheKey dataBytes cacheDuration
      ⟨some (SimpleSuccessResponse platformName subtitle hotDataList false now),
        none, m', 1, true⟩
    else
      ⟨some (SimpleSuccessResponse platformName subtitle hotDataList false now),
        none, m, 1, false⟩

/-- `Fetcher.GetData`: read the tiered cache; a hit that deserializes is
returned with `fromCache = true`; a miss — or a hit whose bytes fail to
deserialize — falls through to the data source. -/
def GetData (m : Manager) (now : Nat) (cacheKey platformName subtitle : String)
    (cacheDuration : Nat) (fetchFunc : Unit → Except GoError (List HotData)) :
    GetDataResult :=
  let g := m.Get now cacheKey
  match g.res with
  | .ok cachedData =>
    match jsonUnmarshal cachedData with
    | some hotDataList =>
      ⟨some (SimpleSuccessResponse platformName subtitle hotDataList true now),
        none, g.mgr, 0, false⟩
    | none =>
      GetDataFetchPath g.mgr now cacheKey platformName subtitle cacheDuration fetchFunc
  | .error _ =>
    GetDataFetchPath g.mgr now cacheKey platformName subtitle cacheDuration fetchFunc

/-- `routes.RetryConfig`.  `maxRetries` is a Go `int` (may be non-positive);
delays are in abstract ticks (the source uses seconds). -/
structure RetryConfig where
  maxRetries : Int
  initialDelay : Nat
  maxDelay : Nat
deriving Repr, DecidableEq

/-- `routes.DefaultRetryConfig`: 3 attempts, 1 s initial delay, 5 s cap. -/
def DefaultRetryConfig : RetryConfig :=
  { maxRetries := 3, initialDelay := 1, maxDelay := 5 }

/-- Caller context: the instant (if any) at which `ctx.Done()` fires, and
the error `ctx.Err()` reports then. -/
structure Ctx where
  doneAt : Option Nat
  ctxErr : GoError
deriving Repr, DecidableEq

/-- Whether `ctx.Done()` fires during a wait of `delay` ticks started at
`elapsed` (the `select` in the retry loop). -/
def cancelledDuring (ctx : Ctx) (elapsed delay : Nat) : Bool :=
  match ctx.doneAt with
  | some t => t < elapsed + delay
  | none => false

/-- The backoff before the retry following 0-based attempt `i`:
`min((i+1) * InitialDelay, MaxDelay)`. -/
def backoffDelay (cfg : RetryConfig) (i : Nat) : Nat :=
  min ((i + 1) * cfg.initialDelay) cfg.maxDelay

/-- Total time spent in the first `k` completed backoff waits. -/
def elapsedBefore (cfg : RetryConfig) (k : Nat) : Nat :=
  ((List.range k).map (backoffDelay cfg)).sum

/-- The aggregated retry-exhaustion error:
`fmt.Errorf("请求失败(已重试 %d 次): %w", config.MaxRetries, lastErr)`. -/
def retryAggErr (maxRetries : Int) (lastErr : Option GoError) : GoError :=
  GoError.wrapOpt ("请求失败(已重试 " ++ toString maxRetries ++ " 次)") lastErr

/-- Result of `FetchWithRetry`, instrumented with the number of operation
invocations and the list of backoff waits actually slept to completion. -/
structure RetryResult where
  body : Option Bytes
  err : Option GoError
  calls : Nat
  delays : List Nat
deriving Repr, DecidableEq

/-- The retry loop of `FetchWithRetry`.  `remaining` counts the loop
iterations left, `attempt` is the 0-based loop index, `elapsed` the ticks
spent so far, `lastErr` the error recorded by the previous failed attempt.
An attempt succeeds when the operation returns no error and a non-empty
body; otherwise, unless it was the final attempt, the loop sleeps the
capped linear backoff, aborting with a cancellation error if `ctx.Done()`
fires during the sleep. -/
def FetchWithRetryAux (op : Nat → Bytes × Option GoError) (ctx : Ctx)
    (cfg : RetryConfig) :
    Nat → Nat → Nat → Option GoError → RetryResult
  | 0, _, _, lastErr =>
    ⟨none, some (retryAggErr cfg.maxRetries lastErr), 0, []⟩
  | r + 1, attempt, elapsed, _ =>
    let body := (op attempt).1
    let err := (op attempt).2
    if err = none ∧ 0 < body.length then
      ⟨some body, none, 1, []⟩
    else if r = 0 then
      ⟨none, some (retryAggErr cfg.maxRetries err), 1, []⟩
    else
      let d := backoffDelay cfg attempt
      if cancelledDuring ctx elapsed d then
        ⟨none, some (.wrapped "请求被取消" ctx.ctxErr), 1, []⟩
      else
        let rest := FetchWithRetryAux op ctx cfg r (attempt + 1) (elapsed + d) err
        ⟨rest.body, rest.err, rest.calls + 1, d :: rest.delays⟩

/-- `routes.FetchWithRetry`: run the loop for `config.MaxRetries`
iterations (none when non-positive), starting with a `nil` recorded
error. -/
def FetchWithRetry (op : Nat → Bytes × Option GoError) (ctx : Ctx)
    (cfg : RetryConfig) : RetryResult :=
  FetchWithRetryAux op ctx cfg cfg.maxRetries.toNat 0 0 none

/-- Go slice header: only length and capacity matter to the pool
contract. -/
structure GoSliceHeader where
  len : Nat
  cap : Nat
deriving Repr, DecidableEq

/-- `pool.ObjectPool`: the two `sync.Pool`s, modelled as stacks of parked
slice headers (`sync.Pool` hands back some parked object or allocates). -/
structure ObjectPool where
  responseBufferPool : List GoSliceHeader
  hotDataListPool : List GoSliceHeader
deriving Repr, DecidableEq

/-- `pool.NewObjectPool`: both pools start empty. -/
def NewObjectPool : ObjectPool := ⟨[], []⟩

namespace ObjectPool

/-- The `New` allocation of the response-buffer pool: 256 KiB capacity. -/
def newResponseBuffer : GoSliceHeader := ⟨0, 256 * 1024⟩

/-- The `New` allocation of the hot-data-list pool: capacity 50. -/
def newHotDataList : GoSliceHeader := ⟨0, 50⟩

/-- `AcquireResponseBuffer`: take a parked buffer (or allocate) and reslice
it to length zero, keeping its capacity. -/
def AcquireResponseBuffer (p : ObjectPool) : GoSliceHeader × ObjectPool :=
  match p.responseBufferPool with
  | [] => (newResponseBuffer, p)
  | b :: rest => ({ b with len := 0 }, { p with responseBufferPool := rest })

/-- `ReleaseResponseBuffer`: park the buffer only when its capacity is at
most 512 KiB; oversized buffers are dropped. -/
def ReleaseResponseBuffer (p : ObjectPool) (buf : GoSliceHeader) : ObjectPool :=
  if buf.cap ≤ 512 * 1024 then
    { p with responseBufferPool := buf :: p.responseBufferPool }
  else p

/-- `AcquireHotDataList`: take a parked list (or allocate) and reslice it to
length zero, keeping its capacity. -/
def AcquireHotDataList (p : ObjectPool) : GoSliceHeader × ObjectPool :=
  match p.hotDataListPool with
  | [] => (newHotDataList, p)
  | l :: rest => ({ l with len := 0 }, { p with hotDataListPool := rest })

/-- `ReleaseHotDataList`: park the list only when its capacity is at most
200 entries; oversized lists are dropped. -/
def ReleaseHotDataList (p : ObjectPool) (list : GoSliceHeader) : ObjectPool :=
  if list.cap ≤ 200 then
    { p with hotDataListPool := list :: p.hotDataListPool }
  else p

end ObjectPool

/-- `http.Client` as configured by `http.NewClient`: the Resty client-level
settings (ticks are seconds). -/
structure HTTPClient where
  timeout : Nat
  retryCount : Nat
  retryWaitTime : Nat
  retryMaxWaitTime : Nat
deriving Repr, DecidableEq

/-- `http.NewClient`: 15 s total timeout, 3 retries, 1 s wait, 5 s cap. -/
def NewClient : HTTPClient :=
  { timeout := 15, retryCount := 3, retryWaitTime := 1, retryMaxWaitTime := 5 }

/-- The fixed warmup list of `warmUpCacheAsync`. -/
def hotPlatforms : List String :=
  ["/weibo", "/toutiao", "/baidu", "/bilibili", "/douyin",
   "/github", "/csdn", "/v2ex", "/hackernews", "/zhihu"]

/-- What one warmup goroutine of `warmUpCacheAsync` does for platform `p`:
it creates a 15-second `context.WithTimeout`, then calls
`httpClient.Get(url, headers)` — a method with no context parameter — and
finally discards the context (`_ = ctx`).  The fields record the created
context's timeout, the fetch call's arguments, whether that context is
passed to the fetch, and the deadline that actually bounds the fetch (the
client-level Resty timeout). -/
structure WarmupTask where
  path : String
  taskCtxTimeout : Nat
  fetchURL : String
  fetchUserAgent : String
  ctxPassedToFetch : Bool
  fetchTimeout : Nat
deriving Repr, DecidableEq

/-- The warmup task for one platform, read off `warmUpCacheAsync`. -/
def warmupTask (client : HTTPClient) (p : String) : WarmupTask :=
  { path := p,
    taskCtxTimeout := 15,
    fetchURL := "http://127.0.0.1:6688" ++ p,
    fetchUserAgent := "DailyHotApi/CacheWarmer",
    ctxPassedToFetch := false,
    fetchTimeout := client.timeout }

/-- C8: every container returned by `AcquireResponseBuffer` /
`AcquireHotDataList` has length zero; `ReleaseResponseBuffer`
(resp. `ReleaseHotDataList`) parks the container exactly when its capacity
is at most the guard threshold (512 KiB bytes, 200 entries) and discards it
otherwise; consequently, if every parked container is within the guard,
releasing anything keeps that invariant and every acquire returns a
container within the guard (a fresh allocation is 256 KiB / 50, also within
the guard). -/
theorem ObjectPool_acquire_release_contract :
    (∀ p : ObjectPool, (p.AcquireResponseBuffer).1.len = 0) ∧
    (∀ p : ObjectPool, (p.AcquireHotDataList).1.len = 0) ∧
    (∀ (p : ObjectPool) (b : GoSliceHeader),
      (p.ReleaseResponseBuffer b).responseBufferPool =
        if b.cap ≤ 512 * 1024 then b :: p.responseBufferPool
        else p.responseBufferPool) ∧
    (∀ (p : ObjectPool) (l : GoSliceHeader),
      (p.ReleaseHotDataList l).hotDataListPool =
        if l.cap ≤ 200 then l :: p.hotDataListPool else p.hotDataListPool) ∧
    (∀ (p : ObjectPool) (b : GoSliceHeader),
      (∀ x ∈ p.responseBufferPool, x.cap ≤ 512 * 1024) →
      ∀ x ∈ (p.ReleaseResponseBuffer b).responseBufferPool, x.cap ≤ 512 * 1024) ∧
    (∀ p : ObjectPool, (∀ x ∈ p.responseBufferPool, x.cap ≤ 512 * 1024) →
      (p.AcquireResponseBuffer).1.cap ≤ 512 * 1024) ∧
    (∀ (p : ObjectPool) (l : GoSliceHeader),
      (∀ x ∈ p.hotDataListPool, x.cap ≤ 200) →
      ∀ x ∈ (p.ReleaseHotDataList l).hotDataListPool, x.cap ≤ 200) ∧
    (∀ p : ObjectPool, (∀ x ∈ p.hotDataListPool, x.cap ≤ 200) →
      (p.AcquireHotDataList).1.cap ≤ 200) := by
  refine ⟨?_, ?_, ?_, ?_, ?_, ?_, ?_, ?_⟩
  · intro p
    cases h : p.responseBufferPool <;>
      simp [ObjectPool.AcquireResponseBuffer, h, ObjectPool.newResponseBuffer]
  · intro p
    cases h : p.hotDataListPool <;>
      simp [ObjectPool.AcquireHotDataList, h, ObjectPool.newHotDataList]
  · intro p b
    by_cases h : b.cap ≤ 512 * 1024 <;> simp [ObjectPool.ReleaseResponseBuffer, h]
  · intro p l
    by_cases h : l.cap ≤ 200 <;> simp [ObjectPool.ReleaseHotDataList, h]
  · intro p b hinv x hx
    by_cases h : b.cap ≤ 512 * 1024
    · simp only [ObjectPool.ReleaseResponseBuffer, if_pos h] at hx
      rcases List.mem_cons.mp hx with rfl | hx2
      · exact h
      · exact hinv x hx2
    · simp only [ObjectPool.ReleaseResponseBuffer, if_neg h] at hx
      exact hinv x hx
  · intro p hinv
    cases h : p.responseBufferPool with
    | nil => simp [ObjectPool.AcquireResponseBuffer, h, ObjectPool.newResponseBuffer]
    | cons b rest =>
      simp only [ObjectPool.AcquireResponseBuffer, h]
      exact hinv b (h ▸ List.mem_cons_self b rest)
  · intro p l hinv x hx
    by_cases h : l.cap ≤ 200
    · simp only [ObjectPool.ReleaseHotDataList, if_pos h] at hx
      rcases List.mem_cons.mp hx with rfl | hx2
      · exact h
      · exact hinv x hx2
    · simp only [ObjectPool.ReleaseHotDataList, if_neg h] at hx
      exact hinv x hx
  · intro p hinv
    cases h : p.hotDataListPool with
    | nil => simp [ObjectPool.AcquireHotDataList, h, ObjectPool.newHotDataList]
    | cons l rest =>
      simp only [ObjectPool.AcquireHotDataList, h]
      exact hinv l (h ▸ List.mem_cons_self l rest)

/-- Witness for C8 at concrete inputs: acquiring from the empty pool gives a
zero-length buffer within the guard, and releasing a 600 KiB buffer parks
nothing. -/
theorem ObjectPool_acquire_release_contract_witness :
    (NewObjectPool.AcquireResponseBuffer).1.len = 0 ∧
    (NewObjectPool.AcquireResponseBuffer).1.cap ≤ 512 * 1024 ∧
    (NewObjectPool.ReleaseResponseBuffer ⟨10, 600 * 1024⟩).responseBufferPool = [] ∧
    (NewObjectPool.ReleaseHotDataList ⟨0, 150⟩).hotDataListPool = [⟨0, 150⟩] := by
  refine ⟨ObjectPool_acquire_release_contract.1 NewObjectPool,
    ObjectPool_acquire_release_contract.2.2.2.2.2.1 NewObjectPool ?_, ?_, ?_⟩
  · intro x hx
    simp [NewObjectPool] at hx
  · rw [ObjectPool_acquire_release_contract.2.2.1 NewObjectPool ⟨10, 600 * 1024⟩]
    norm_num [NewObjectPool]
  · rw [ObjectPool_acquire_release_contract.2.2.2.1 NewObjectPool ⟨0, 150⟩]
    norm_num [NewObjectPool]

/-- C9 (code bug, evaluated at the failing input `"/weibo"`): the warmup
task creates a 15-second deadline context, but that context is never passed
to the HTTP fetch — `Client.Get` has no context parameter and the context
is discarded (`_ = ctx`) — so the created deadline does not govern the
fetch; the fetch is bounded only by the shared client's own 15-second
Resty timeout configured in `NewClient`. -/
theorem warmup_ctx_not_passed_to_fetch :
    "/weibo" ∈ hotPlatforms ∧
    (warmupTask NewClient "/weibo").taskCtxTimeout = 15 ∧
    (warmupTask NewClient "/weibo").ctxPassedToFetch = false ∧
    (warmupTask NewClient "/weibo").fetchTimeout = NewClient.timeout ∧
    NewClient.timeout = 15 := by
  exact ⟨by simp [hotPlatforms], rfl, rfl, rfl, rfl⟩

/-- C10: with `MaxRetries ≤ 0` the loop body never runs: `FetchWithRetry`
returns a nil body and the aggregated error naming the configured attempt
count and wrapping a nil underlying error, with zero operation
invocations. -/
theorem FetchWithRetry_degenerate_config :
    ∀ (op : Nat → Bytes × Option GoError) (ctx : Ctx) (cfg : RetryConfig),
      cfg.maxRetries ≤ 0 →
      FetchWithRetry op ctx cfg =
        ⟨none, some (GoError.wrappedNil
          ("请求失败(已重试 " ++ toString cfg.maxRetries ++ " 次)")), 0, []⟩ := by
  intro op ctx cfg h
  have h0 : cfg.maxRetries.toNat = 0 := Int.toNat_of_nonpos h
  simp [FetchWithRetry, h0, FetchWithRetryAux, retryAggErr, GoError.wrapOpt]

/-- Witness for C10: a concrete degenerate configuration. -/
theorem FetchWithRetry_degenerate_config_witness :
    FetchWithRetry (fun _ => ([], none)) ⟨none, .simple "c"⟩ ⟨-2, 1, 5⟩ =
      ⟨none, some (GoError.wrappedNil
        ("请求失败(已重试 " ++ toString (-2 : Int) ++ " 次)")), 0, []⟩ :=
  FetchWithRetry_degenerate_config (fun _ => ([], none)) ⟨none, .simple "c"⟩
    ⟨-2, 1, 5⟩ (by decide)

theorem L1Cache_get_of_alookup_none {c : L1Cache} {now : Nat} {key : String}
    (h : alookup key c.entries = none) : c.get now key = none := by
  simp [L1Cache.get, h]

theorem RedisClient_get_of_alookup_none {c : RedisClient} {now : Nat} {key : String}
    (h : alookup key c.entries = none) : c.get now key = none := by
  simp [RedisClient.get, h]

/-- C2: `Manager.Get` consults L1 first; an L1 hit returns immediately with
no L2 access and no state change; on an L1 miss with L2 enabled and
holding the key, the value is returned and promoted into L1 best-effort —
when the L1 write succeeds the key is readable from L1, and when it fails
the read still returns the value; when both tiers miss, the formatted miss
error is returned. -/
theorem Manager_Get_tiered_order :
    ∀ (m : Manager) (now : Nat) (key : String),
      (∀ v : Bytes, m.l1Enabled = true → m.l1Cache.get now key = some v →
        m.Get now key = ⟨.ok v, m, false⟩) ∧
      (∀ v : Bytes,
        (m.l1Enabled = true → m.l1Cache.get now key = none) →
        m.l2Enabled = true → m.l2Cache.get now key = some v →
        (m.Get now key).res = .ok v ∧
        (m.Get now key).mgr.l1Cache =
          (if m.l1Enabled then (m.l1Cache.set now key v).getD m.l1Cache
           else m.l1Cache) ∧
        (m.l1Enabled = true → 0 < m.l1Cache.lifeWindow →
          v.length ≤ m.l1Cache.maxEntrySize →
          (m.Get now key).mgr.l1Cache.get now key = some v)) ∧
      ((m.l1Enabled = true → m.l1Cache.get now key = none) →
        (m.l2Enabled = true → m.l2Cache.get now key = none) →
        (m.Get now key).res = .error ("缓存未命中: " ++ key) ∧
        (m.Get now key).mgr = m) := by
  intro m now key
  refine ⟨?_, ?_, ?_⟩
  · intro v h1 hv
    simp [Manager.Get, h1, hv]
  · intro v hmiss h2 hv
    cases hl1 : m.l1Enabled with
    | false =>
      refine ⟨?_, ?_, ?_⟩ <;>
        simp [Manager.Get, Manager.GetL2, hl1, h2, hv]
    | true =>
      have hm := hmiss hl1
      refine ⟨?_, ?_, ?_⟩
      · simp [Manager.Get, Manager.GetL2, hl1, hm, h2, hv]
      · simp [Manager.Get, Manager.GetL2, hl1, hm, h2, hv]
      · intro _ hlw hsz
        simp only [Manager.Get, Manager.GetL2, hl1, hm, h2, hv, if_true]
        simp only [L1Cache.set, if_pos hsz]
        simp [L1Cache.get, hlw]
  · intro hmiss1 hmiss2
    cases hl1 : m.l1Enabled with
    | false =>
      cases hl2 : m.l2Enabled with
      | false => simp [Manager.Get, Manager.GetL2, hl1, hl2]
      | true => simp [Manager.Get, Manager.GetL2, hl1, hl2, hmiss2 hl2]
    | true =>
      have hm := hmiss1 hl1
      cases hl2 : m.l2Enabled with
      | false => simp [Manager.Get, Manager.GetL2, hl1, hl2, hm]
      | true => simp [Manager.Get, Manager.GetL2, hl1, hl2, hm, hmiss2 hl2]

/-- Witness for C2 at concrete inputs: an L1 hit is served from L1 without
touching L2 or the state; a pure L2 hit is promoted and readable from L1;
a double miss yields the formatted error. -/
theorem Manager_Get_tiered_order_witness :
    (Manager.mk ⟨10, 100, [("k", ([1, 2], 0))]⟩ ⟨[]⟩ 5 true false).Get 3 "k" =
      ⟨.ok [1, 2], Manager.mk ⟨10, 100, [("k", ([1, 2], 0))]⟩ ⟨[]⟩ 5 true false, false⟩ ∧
    ((Manager.mk ⟨10, 100, []⟩ ⟨[("k", ([7], 50))]⟩ 5 true true).Get 3 "k").res = .ok [7] ∧
    ((Manager.mk ⟨10, 100, []⟩ ⟨[("k", ([7], 50))]⟩ 5 true true).Get 3 "k").mgr.l1Cache.get 3 "k" =
      some [7] ∧
    ((Manager.mk ⟨10, 100, []⟩ ⟨[]⟩ 5 true true).Get 3 "k").res =
      .error ("缓存未命中: " ++ "k") := by
  refine ⟨?_, ?_, ?_, ?_⟩
  · exact (Manager_Get_tiered_order _ 3 "k").1 [1, 2] rfl (by decide)
  · exact ((Manager_Get_tiered_order _ 3 "k").2.1 [7] (fun _ => by decide) rfl
      (by decide)).1
  · exact ((Manager_Get_tiered_order _ 3 "k").2.1 [7] (fun _ => by decide) rfl
      (by decide)).2.2 rfl (by decide) (by decide)
  · exact ((Manager_Get_tiered_order _ 3 "k").2.2 (fun _ => by decide)
      (fun _ => by decide)).1

/-- C3 counterexample: with only L1 enabled (life window 5 = the configured
default), a `Set` with per-entry ttl 100 stores the entry, yet a read at
time 10 — well before ttl 100 has elapsed — already misses: the L1 tier does
not store the entry so that it expires after ttl. -/
theorem Manager_Set_l1_ignores_ttl :
    (((Manager.mk ⟨5, 1000, []⟩ ⟨[]⟩ 5 true false).Set 0 "k" [7] 100).l1Cache.entries =
      [("k", ([7], 0))]) ∧
    ((Manager.mk ⟨5, 1000, []⟩ ⟨[]⟩ 5 true false).Set 0 "k" [7] 100).l1Cache.get 10 "k" =
      none ∧
    ((((Manager.mk ⟨5, 1000, []⟩ ⟨[]⟩ 5 true false).Set 0 "k" [7] 100).Get 10 "k").res =
      .error ("缓存未命中: " ++ "k")) ∧
    10 < 100 := by
  refine ⟨?_, ?_, ?_, by decide⟩ <;> decide

/-- C3 amended: `Manager.Set` writes L2 so that the key expires after
exactly the per-entry ttl (substituting the configured default when ttl is
zero), while L1 stores the entry with no per-entry TTL: its expiry is
governed by the tier's configured life window regardless of ttl. -/
theorem Manager_Set_ttl_amended :
    ∀ (m : Manager) (now : Nat) (key : String) (value : Bytes) (ttl : Nat),
      m.l1Enabled = true → m.l2Enabled = true →
      value.length ≤ m.l1Cache.maxEntrySize →
      (∀ t, ((m.Set now key value ttl).l2Cache.get t key) =
        if t < now + (if ttl = 0 then m.cfgDefaultExpire else ttl) then some value
        else none) ∧
      (∀ t, ((m.Set now key value ttl).l1Cache.get t key) =
        if t < now + m.l1Cache.lifeWindow then some value else none) := by
  intro m now key value ttl h1 h2 hsz
  constructor
  · intro t
    simp [Manager.Set, h2, RedisClient.set, RedisClient.get]
  · intro t
    simp only [Manager.Set, h1, if_true, L1Cache.set, if_pos hsz, Option.getD_some]
    simp [L1Cache.get]

/-- Witness for C3 amended: ttl 100 keeps the key alive in L2 at time 99 and
expires it at 100, while L1 — life window 5 — already misses at time 10. -/
theorem Manager_Set_ttl_amended_witness :
    ((Manager.mk ⟨5, 1000, []⟩ ⟨[]⟩ 5 true true).Set 0 "k" [7] 100).l2Cache.get 99 "k" =
      some [7] ∧
    ((Manager.mk ⟨5, 1000, []⟩ ⟨[]⟩ 5 true true).Set 0 "k" [7] 100).l2Cache.get 100 "k" =
      none ∧
    ((Manager.mk ⟨5, 1000, []⟩ ⟨[]⟩ 5 true true).Set 0 "k" [7] 100).l1Cache.get 10 "k" =
      none := by
  have h := Manager_Set_ttl_amended (Manager.mk ⟨5, 1000, []⟩ ⟨[]⟩ 5 true true)
    0 "k" [7] 100 rfl rfl (by decide)
  refine ⟨?_, ?_, ?_⟩
  · rw [h.1 99]; decide
  · rw [h.1 100]; decide
  · rw [h.2 10]; decide

/-- C4: when the tiered cache holds no entry for the key and the data
source succeeds with an empty list, `GetData` returns the empty list as a
success with `fromCache = false`, performs no cache write (the manager is
returned unchanged and `Set` is never called), and a subsequent `GetData`
on the same key invokes the data source again. -/
theorem GetData_empty_result_not_cached :
    ∀ (m : Manager) (t1 t2 : Nat) (key plat sub : String) (ttl : Nat)
      (f2 : Unit → Except GoError (List HotData)),
      alookup key m.l1Cache.entries = none →
      alookup key m.l2Cache.entries = none →
      GetData m t1 key plat sub ttl (fun _ => .ok []) =
        ⟨some (SimpleSuccessResponse plat sub [] false t1), none, m, 1, false⟩ ∧
      (GetData (GetData m t1 key plat sub ttl (fun _ => .ok [])).mgr
        t2 key plat sub ttl f2).fetchCalls = 1 := by
  intro m t1 t2 key plat sub ttl f2 h1 h2
  have hmiss : ∀ t : Nat, m.Get t key =
      ⟨.error ("缓存未命中: " ++ key), m, m.l2Enabled⟩ := by
    intro t
    have e1 : m.l1Cache.get t key = none := L1Cache_get_of_alookup_none h1
    have e2 : m.l2Cache.get t key = none := RedisClient_get_of_alookup_none h2
    cases hl1 : m.l1Enabled <;> cases hl2 : m.l2Enabled <;>
      simp [Manager.Get, Manager.GetL2, hl1, hl2, e1, e2]
  have hfirst : GetData m t1 key plat sub ttl (fun _ => .ok []) =
      ⟨some (SimpleSuccessResponse plat sub [] false t1), none, m, 1, false⟩ := by
    simp [GetData, hmiss t1, GetDataFetchPath]
  refine ⟨hfirst, ?_⟩
  rw [hfirst]
  show (GetData m t2 key plat sub ttl f2).fetchCalls = 1
  cases hf : f2 () with
  | error e => simp [GetData, hmiss t2, GetDataFetchPath, hf]
  | ok l =>
    by_cases hl : 0 < l.length <;>
      simp [GetData, hmiss t2, GetDataFetchPath, hf, hl]

/-- Witness for C4 at concrete inputs: an empty fetch result on an empty
cache leaves the manager untouched and the follow-up call fetches again. -/
theorem GetData_empty_result_not_cached_witness :
    GetData (Manager.mk ⟨5, 1000, []⟩ ⟨[]⟩ 5 true true) 0 "k" "p" "s" 10
        (fun _ => .ok []) =
      ⟨some (SimpleSuccessResponse "p" "s" [] false 0), none,
       Manager.mk ⟨5, 1000, []⟩ ⟨[]⟩ 5 true true, 1, false⟩ ∧
    (GetData (GetData (Manager.mk ⟨5, 1000, []⟩ ⟨[]⟩ 5 true true) 0 "k" "p" "s" 10
        (fun _ => .ok [])).mgr 1 "k" "p" "s" 10 (fun _ => .ok [])).fetchCalls = 1 :=
  GetData_empty_result_not_cached (Manager.mk ⟨5, 1000, []⟩ ⟨[]⟩ 5 true true)
    0 1 "k" "p" "s" 10 (fun _ => .ok []) (by decide) (by decide)

/-- C5 amended: whenever the data source is invoked (the cache read yielded
no deserializable value) and returns an error, `GetData` returns a nil
response and that error wrapped with the platform name, invokes the source
exactly once, never calls the cache write-back, and leaves the cache
exactly as the initial read left it — which may include the read's own
L2→L1 promotion of pre-existing non-deserializable bytes. -/
theorem GetData_source_error_propagation :
    ∀ (m : Manager) (now : Nat) (key plat sub : String) (ttl : Nat) (e : GoError),
      (∀ v : Bytes, (m.Get now key).res = .ok v → jsonUnmarshal v = none) →
      GetData m now key plat sub ttl (fun _ => .error e) =
        ⟨none, some (.wrapped ("获取 " ++ plat ++ " 数据失败") e),
         (m.Get now key).mgr, 1, false⟩ := by
  intro m now key plat sub ttl e h
  cases hres : (m.Get now key).res with
  | error s => simp [GetData, hres, GetDataFetchPath]
  | ok v => simp [GetData, hres, h v hres, GetDataFetchPath]

/-- Witness for C5 at concrete inputs: an empty cache, a failing source. -/
theorem GetData_source_error_propagation_witness :
    GetData (Manager.mk ⟨5, 1000, []⟩ ⟨[]⟩ 5 true false) 0 "k" "微博" "热搜" 10
        (fun _ => .error (.simple "net down")) =
      ⟨none, some (.wrapped ("获取 " ++ "微博" ++ " 数据失败") (.simple "net down")),
       ((Manager.mk ⟨5, 1000, []⟩ ⟨[]⟩ 5 true false).Get 0 "k").mgr, 1, false⟩ :=
  GetData_source_error_propagation (Manager.mk ⟨5, 1000, []⟩ ⟨[]⟩ 5 true false)
    0 "k" "微博" "热搜" 10 (.simple "net down")
    (fun v hv => by simp [Manager.Get, Manager.GetL2, L1Cache.get] at hv)

/-- C5 counterexample: a `GetData` call whose data source errors can still
change the cache state for the key — here the key is absent from L1 before
the call, the read promotes the non-deserializable L2 bytes `[9999]` into
L1, the source then errors, and after the failed call L1 holds the key. -/
theorem GetData_failed_call_promotes_l1 :
    alookup "k" (Manager.mk ⟨5, 1000, []⟩ ⟨[("k", ([9999], 100))]⟩ 5 true true).l1Cache.entries =
      none ∧
    (GetData (Manager.mk ⟨5, 1000, []⟩ ⟨[("k", ([9999], 100))]⟩ 5 true true)
        0 "k" "p" "s" 10 (fun _ => .error (.simple "boom"))).err =
      some (.wrapped ("获取 " ++ "p" ++ " 数据失败") (.simple "boom")) ∧
    alookup "k" ((GetData (Manager.mk ⟨5, 1000, []⟩ ⟨[("k", ([9999], 100))]⟩ 5 true true)
        0 "k" "p" "s" 10 (fun _ => .error (.simple "boom"))).mgr).l1Cache.entries =
      some ([9999], 0) := by
  refine ⟨?_, ?_, ?_⟩ <;> decide

theorem Manager.Get_res_ok_of_l2 {m : Manager} {now : Nat} {key : String}
    {v : Bytes} (h2 : m.l2Enabled = true) (hv : m.l2Cache.get now key = some v)
    (h1 : m.l1Enabled = true →
      m.l1Cache.get now key = some v ∨ m.l1Cache.get now key = none) :
    (m.Get now key).res = .ok v := by
  cases hl1 : m.l1Enabled with
  | false => simp [Manager.Get, Manager.GetL2, hl1, h2, hv]
  | true =>
    rcases h1 hl1 with hh | hh <;>
      simp [Manager.Get, Manager.GetL2, hl1, h2, hv, hh]

/-- C1 amended: with the L2 tier enabled, for a key held by neither tier, a
first `GetData` whose source succeeds with a non-empty list returns
`fromCache = false`, and a second call before the ttl elapses returns
`fromCache = true` with record content byte-identical after serialization,
without invoking the second call's data source. -/
theorem GetData_cacheAside_roundtrip_l2 :
    ∀ (m : Manager) (t1 t2 : Nat) (key plat sub : String) (ttl : Nat)
      (l : List HotData) (f2 : Unit → Except GoError (List HotData)),
      m.l2Enabled = true →
      alookup key m.l1Cache.entries = none →
      alookup key m.l2Cache.entries = none →
      0 < ttl → l ≠ [] → t2 < t1 + ttl →
      (GetData m t1 key plat sub ttl (fun _ => .ok l)).resp =
        some (SimpleSuccessResponse plat sub l false t1) ∧
      (GetData m t1 key plat sub ttl (fun _ => .ok l)).err = none ∧
      (GetData (GetData m t1 key plat sub ttl (fun _ => .ok l)).mgr
        t2 key plat sub ttl f2).resp =
        some (SimpleSuccessResponse plat sub l true t2) ∧
      (GetData (GetData m t1 key plat sub ttl (fun _ => .ok l)).mgr
        t2 key plat sub ttl f2).err = none ∧
      (GetData (GetData m t1 key plat sub ttl (fun _ => .ok l)).mgr
        t2 key plat sub ttl f2).fetchCalls = 0 ∧
      jsonMarshal (SimpleSuccessResponse plat sub l true t2).data =
        jsonMarshal (SimpleSuccessResponse plat sub l false t1).data := by
  intro m t1 t2 key plat sub ttl l f2 hl2 h1 h2 httl hl ht2
  have e1 : m.l1Cache.get t1 key = none := L1Cache_get_of_alookup_none h1
  have e2 : m.l2Cache.get t1 key = none := RedisClient_get_of_alookup_none h2
  have hmiss : (m.Get t1 key) = ⟨.error ("缓存未命中: " ++ key), m, m.l2Enabled⟩ := by
    cases hl1 : m.l1Enabled <;> simp [Manager.Get, Manager.GetL2, hl1, hl2, e1, e2]
  have hlen : 0 < l.length := List.length_pos.mpr hl
  have httl0 : ¬(ttl = 0) := Nat.pos_iff_ne_zero.mp httl
  have hfirst : GetData m t1 key plat sub ttl (fun _ => .ok l) =
      ⟨some (SimpleSuccessResponse plat sub l false t1), none,
       m.Set t1 key (jsonMarshal l) ttl, 1, true⟩ := by
    simp [GetData, hmiss, GetDataFetchPath, hlen]
  have hl2get : (m.Set t1 key (jsonMarshal l) ttl).l2Cache.get t2 key =
      some (jsonMarshal l) := by
    simp [Manager.Set, hl2, httl0, RedisClient.set, RedisClient.get, ht2]
  have hl1after : (m.Set t1 key (jsonMarshal l) ttl).l1Cache.get t2 key =
        some (jsonMarshal l) ∨
      (m.Set t1 key (jsonMarshal l) ttl).l1Cache.get t2 key = none := by
    cases hl1 : m.l1Enabled with
    | false =>
      right
      simp only [Manager.Set, hl1]
      simpa using @L1Cache_get_of_alookup_none _ t2 _ h1
    | true =>
      cases hset : m.l1Cache.set t1 key (jsonMarshal l) with
      | none =>
        right
        simp only [Manager.Set, hl1, if_true, hset, Option.getD_none]
        simpa using @L1Cache_get_of_alookup_none _ t2 _ h1
      | some c =>
        simp only [Manager.Set, hl1, if_true, hset, Option.getD_some]
        simp only [L1Cache.set] at hset
        by_cases hsz : (jsonMarshal l).length ≤ m.l1Cache.maxEntrySize
        · rw [if_pos hsz] at hset
          cases hset
          by_cases hfresh : t2 < t1 + m.l1Cache.lifeWindow
          · left; simp [L1Cache.get, hfresh]
          · right; simp [L1Cache.get, hfresh]
        · rw [if_neg hsz] at hset
          exact absurd hset (by simp)
  have hread2 : ((m.Set t1 key (jsonMarshal l) ttl).Get t2 key).res =
      .ok (jsonMarshal l) :=
    Manager.Get_res_ok_of_l2 (by simp [Manager.Set, hl2]) hl2get
      (fun _ => hl1after)
  rw [hfirst]
  refine ⟨rfl, rfl, ?_, ?_, ?_, rfl⟩ <;>
    simp [GetData, hread2, jsonUnmarshal_jsonMarshal]

/-- Witness for C1 amended at concrete inputs: the spec's own scenario with
L2 enabled — first call fetches, second call at a later instant within the
ttl serves from cache without invoking the source. -/
theorem GetData_cacheAside_roundtrip_l2_witness :
    (GetData (Manager.mk ⟨5, 1000, []⟩ ⟨[]⟩ 5 true true) 0 "demo_hot" "demo" "热榜" 10
        (fun _ => .ok [⟨"1", "A", "", "", "", none, none, "http://x/1", ""⟩])).resp =
      some (SimpleSuccessResponse "demo" "热榜"
        [⟨"1", "A", "", "", "", none, none, "http://x/1", ""⟩] false 0) ∧
    (GetData (GetData (Manager.mk ⟨5, 1000, []⟩ ⟨[]⟩ 5 true true) 0 "demo_hot" "demo"
        "热榜" 10 (fun _ => .ok [⟨"1", "A", "", "", "", none, none, "http://x/1", ""⟩])).mgr
        7 "demo_hot" "demo" "热榜" 10 (fun _ => .error (.simple "must not run"))).resp =
      some (SimpleSuccessResponse "demo" "热榜"
        [⟨"1", "A", "", "", "", none, none, "http://x/1", ""⟩] true 7) ∧
    (GetData (GetData (Manager.mk ⟨5, 1000, []⟩ ⟨[]⟩ 5 true true) 0 "demo_hot" "demo"
        "热榜" 10 (fun _ => .ok [⟨"1", "A", "", "", "", none, none, "http://x/1", ""⟩])).mgr
        7 "demo_hot" "demo" "热榜" 10
        (fun _ => .error (.simple "must not run"))).fetchCalls = 0 := by
  have h := GetData_cacheAside_roundtrip_l2 (Manager.mk ⟨5, 1000, []⟩ ⟨[]⟩ 5 true true)
    0 7 "demo_hot" "demo" "热榜" 10
    [⟨"1", "A", "", "", "", none, none, "http://x/1", ""⟩]
    (fun _ => .error (.simple "must not run"))
    rfl (by decide) (by decide) (by decide) (by decide) (by decide)
  exact ⟨h.1, h.2.2.1, h.2.2.2.2.1⟩

/-- C1 counterexample: with only L1 enabled (life window 5, the configured
default) and ttl 10, the second call at time 7 — before the TTL has
elapsed — does not return from cache: it fetches again, because the L1 tier
stores entries under its life window, not the per-entry ttl. -/
theorem GetData_cacheAside_l1Only_violation :
    ((GetData (GetData (Manager.mk ⟨5, 1000, []⟩ ⟨[]⟩ 5 true false) 0 "demo_hot" "demo"
        "热榜" 10 (fun _ => .ok [⟨"1", "A", "", "", "", none, none, "http://x/1", ""⟩])).mgr
        7 "demo_hot" "demo" "热榜" 10
        (fun _ => .ok [⟨"1", "A", "", "", "", none, none, "http://x/1", ""⟩])).resp.map
      Response.fromCache = some false) ∧
    (GetData (GetData (Manager.mk ⟨5, 1000, []⟩ ⟨[]⟩ 5 true false) 0 "demo_hot" "demo"
        "热榜" 10 (fun _ => .ok [⟨"1", "A", "", "", "", none, none, "http://x/1", ""⟩])).mgr
        7 "demo_hot" "demo" "热榜" 10
        (fun _ => .ok [⟨"1", "A", "", "", "", none, none, "http://x/1", ""⟩])).fetchCalls = 1 ∧
    7 < 0 + 10 := by
  refine ⟨?_, ?_, by decide⟩ <;> decide

theorem backoff_shift (cfg : RetryConfig) (a k : Nat) :
    (List.range (k + 1)).map (fun i => backoffDelay cfg (a + i)) =
    backoffDelay cfg a :: (List.range k).map (fun i => backoffDelay cfg (a + 1 + i)) := by
  rw [List.range_succ_eq_map, List.map_cons, List.map_map]
  have hfe : ((fun i => backoffDelay cfg (a + i)) ∘ Nat.succ) =
      (fun i => backoffDelay cfg (a + 1 + i)) := by
    funext i
    have h : a + Nat.succ i = a + 1 + i := by omega
    rw [Function.comp_apply, h]
  rw [hfe]
  simp

theorem backoff_zero_add (cfg : RetryConfig) :
    (fun i => backoffDelay cfg (0 + i)) = backoffDelay cfg := by
  funext i
  rw [Nat.zero_add]

/-- Total time spent in the backoff waits after attempts `a, …, a + k - 1`. -/
def sumBackoff (cfg : RetryConfig) (a k : Nat) : Nat :=
  ((List.range k).map (fun i => backoffDelay cfg (a + i))).sum

theorem sumBackoff_zero (cfg : RetryConfig) (a : Nat) : sumBackoff cfg a 0 = 0 := rfl

theorem sumBackoff_succ (cfg : RetryConfig) (a k : Nat) :
    sumBackoff cfg a (k + 1) = backoffDelay cfg a + sumBackoff cfg (a + 1) k := by
  unfold sumBackoff
  rw [backoff_shift, List.sum_cons]

theorem elapsedBefore_eq_sumBackoff (cfg : RetryConfig) (k : Nat) :
    elapsedBefore cfg k = sumBackoff cfg 0 k := by
  simp [elapsedBefore, sumBackoff, backoff_zero_add]

theorem FetchWithRetryAux_success (op : Nat → Bytes × Option GoError) (ctx : Ctx)
    (cfg : RetryConfig) (hc : ctx.doneAt = none) :
    ∀ (k r a e : Nat) (le : Option GoError),
      k < r →
      (∀ i, i < k → ¬((op (a + i)).2 = none ∧ 0 < (op (a + i)).1.length)) →
      (op (a + k)).2 = none → 0 < (op (a + k)).1.length →
      FetchWithRetryAux op ctx cfg r a e le =
        ⟨some (op (a + k)).1, none, k + 1,
         (List.range k).map (fun i => backoffDelay cfg (a + i))⟩ := by
  intro k
  induction k with
  | zero =>
    intro r a e le hk hfail hnone hlen
    cases r with
    | zero => exact absurd hk (by omega)
    | succ r' =>
      simp only [FetchWithRetryAux]
      rw [if_pos ⟨hnone, hlen⟩]
      simp
  | succ k ih =>
    intro r a e le hk hfail hnone hlen
    cases r with
    | zero => exact absurd hk (by omega)
    | succ r' =>
      have hf0 : ¬((op a).2 = none ∧ 0 < (op a).1.length) := by
        have h := hfail 0 (by omega)
        simpa using h
      have hr' : ¬(r' = 0) := by omega
      have hcd : cancelledDuring ctx e (backoffDelay cfg a) = false := by
        simp [cancelledDuring, hc]
      have heq : a + (k + 1) = a + 1 + k := by omega
      have hrec := ih r' (a + 1) (e + backoffDelay cfg a) (op a).2 (by omega)
        (fun i hi => by
          have h := hfail (i + 1) (by omega)
          have h2 : a + (i + 1) = a + 1 + i := by omega
          rwa [h2] at h)
        (by rwa [heq] at hnone)
        (by rwa [heq] at hlen)
      simp only [FetchWithRetryAux]
      rw [if_neg hf0, if_neg hr']
      rw [hcd]
      rw [if_neg (by simp)]
      rw [hrec, heq, backoff_shift]

theorem FetchWithRetryAux_exhaust (op : Nat → Bytes × Option GoError) (ctx : Ctx)
    (cfg : RetryConfig) (hc : ctx.doneAt = none) :
    ∀ (r a e : Nat) (le : Option GoError),
      0 < r →
      (∀ i, i < r → ¬((op (a + i)).2 = none ∧ 0 < (op (a + i)).1.length)) →
      FetchWithRetryAux op ctx cfg r a e le =
        ⟨none, some (retryAggErr cfg.maxRetries (op (a + (r - 1))).2), r,
         (List.range (r - 1)).map (fun i => backoffDelay cfg (a + i))⟩ := by
  intro r
  induction r with
  | zero => intro a e le h; exact absurd h (by omega)
  | succ r' ih =>
    intro a e le _ hfail
    have hf0 : ¬((op a).2 = none ∧ 0 < (op a).1.length) := by
      have h := hfail 0 (by omega)
      simpa using h
    by_cases hr0 : r' = 0
    · subst hr0
      simp only [FetchWithRetryAux]
      rw [if_neg hf0]
      simp
    · have hcd : cancelledDuring ctx e (backoffDelay cfg a) = false := by
        simp [cancelledDuring, hc]
      have hrec := ih (a + 1) (e + backoffDelay cfg a) (op a).2 (by omega)
        (fun i hi => by
          have h := hfail (i + 1) (by omega)
          have h2 : a + (i + 1) = a + 1 + i := by omega
          rwa [h2] at h)
      simp only [FetchWithRetryAux]
      rw [if_neg hf0, if_neg hr0]
      rw [hcd]
      rw [if_neg (by simp)]
      simp only [hrec]
      have heq3 : a + 1 + (r' - 1) = a + (r' + 1 - 1) := by omega
      have hr1 : r' + 1 - 1 = (r' - 1) + 1 := by omega
      rw [heq3, hr1, backoff_shift]

theorem FetchWithRetryAux_cancel (op : Nat → Bytes × Option GoError)
    (cfg : RetryConfig) (t : Nat) (cerr : GoError) :
    ∀ (k r a e : Nat) (le : Option GoError),
      k + 1 < r →
      (∀ i, i ≤ k → ¬((op (a + i)).2 = none ∧ 0 < (op (a + i)).1.length)) →
      e + sumBackoff cfg a k ≤ t →
      t < e + sumBackoff cfg a k + backoffDelay cfg (a + k) →
      FetchWithRetryAux op ⟨some t, cerr⟩ cfg r a e le =
        ⟨none, some (.wrapped "请求被取消" cerr), k + 1,
         (List.range k).map (fun i => backoffDelay cfg (a + i))⟩ := by
  intro k
  induction k with
  | zero =>
    intro r a e le hk hfail hlo hhi
    cases r with
    | zero => exact absurd hk (by omega)
    | succ r' =>
      have hf0 : ¬((op a).2 = none ∧ 0 < (op a).1.length) := by
        have h := hfail 0 (by omega)
        simpa using h
      have hr' : ¬(r' = 0) := by omega
      rw [sumBackoff_zero] at hlo hhi
      have hcd : cancelledDuring ⟨some t, cerr⟩ e (backoffDelay cfg a) = true := by
        simp only [cancelledDuring]
        simp only [Nat.add_zero] at hhi
        simp
        omega
      simp only [FetchWithRetryAux]
      rw [if_neg hf0, if_neg hr']
      rw [hcd]
      rw [if_pos rfl]
      simp
  | succ k ih =>
    intro r a e le hk hfail hlo hhi
    cases r with
    | zero => exact absurd hk (by omega)
    | succ r' =>
      have hf0 : ¬((op a).2 = none ∧ 0 < (op a).1.length) := by
        have h := hfail 0 (by omega)
        simpa using h
      have hr' : ¬(r' = 0) := by omega
      rw [sumBackoff_succ] at hlo hhi
      have hcd : cancelledDuring ⟨some t, cerr⟩ e (backoffDelay cfg a) = false := by
        simp only [cancelledDuring]
        simp
        omega
      have heq : a + (k + 1) = a + 1 + k := by omega
      have hrec := ih r' (a + 1) (e + backoffDelay cfg a) (op a).2 (by omega)
        (fun i hi => by
          have h := hfail (i + 1) (by omega)
          have h2 : a + (i + 1) = a + 1 + i := by omega
          rwa [h2] at h)
        (by omega)
        (by rw [heq] at hhi; omega)
      simp only [FetchWithRetryAux]
      rw [if_neg hf0, if_neg hr']
      rw [hcd]
      rw [if_neg (by simp)]
      rw [hrec, backoff_shift]

/-- C6: with no cancellation, if the operation fails on its first N−1
invocations and succeeds (no error, non-empty body) on the Nth, with
N ≤ MaxRetries, `FetchWithRetry` invokes it exactly N times, returns that
body, and the waits slept before the retries are exactly
`min(attemptIndex * InitialDelay, MaxDelay)` for the 1-based indices
1, …, N−1 (here `backoffDelay cfg i = min((i+1)·initial, max)` for the
0-based index `i`); and if all MaxRetries invocations fail, it returns the
aggregated error naming the attempt count and wrapping the last recorded
underlying error, after exactly MaxRetries invocations. -/
theorem FetchWithRetry_contract :
    ∀ (op : Nat → Bytes × Option GoError) (ctx : Ctx) (cfg : RetryConfig),
      ctx.doneAt = none →
      (∀ N : Nat, 0 < N → (N : Int) ≤ cfg.maxRetries →
        (∀ i, i < N - 1 → ¬((op i).2 = none ∧ 0 < (op i).1.length)) →
        (op (N - 1)).2 = none → 0 < (op (N - 1)).1.length →
        FetchWithRetry op ctx cfg =
          ⟨some (op (N - 1)).1, none, N,
           (List.range (N - 1)).map (backoffDelay cfg)⟩) ∧
      ((0 : Int) < cfg.maxRetries →
        (∀ i : Nat, (i : Int) < cfg.maxRetries →
          ¬((op i).2 = none ∧ 0 < (op i).1.length)) →
        FetchWithRetry op ctx cfg =
          ⟨none, some (retryAggErr cfg.maxRetries (op (cfg.maxRetries.toNat - 1)).2),
           cfg.maxRetries.toNat,
           (List.range (cfg.maxRetries.toNat - 1)).map (backoffDelay cfg)⟩) := by
  intro op ctx cfg hc
  constructor
  · intro N hN hNle hfail hnone hlen
    have hlt : N - 1 < cfg.maxRetries.toNat := by omega
    have h := FetchWithRetryAux_success op ctx cfg hc (N - 1)
      cfg.maxRetries.toNat 0 0 none hlt
      (fun i hi => by rw [Nat.zero_add]; exact hfail i hi)
      (by rw [Nat.zero_add]; exact hnone)
      (by rw [Nat.zero_add]; exact hlen)
    rw [FetchWithRetry, h, Nat.zero_add, backoff_zero_add]
    have hN1 : N - 1 + 1 = N := by omega
    rw [hN1]
  · intro hpos hfail
    have h0 : 0 < cfg.maxRetries.toNat := by omega
    have h := FetchWithRetryAux_exhaust op ctx cfg hc
      cfg.maxRetries.toNat 0 0 none h0
      (fun i hi => by rw [Nat.zero_add]; exact hfail i (by omega))
    rw [FetchWithRetry, h, Nat.zero_add, backoff_zero_add]

/-- Witness for C6: a concrete fail-once-then-succeed run (2 invocations,
one 1-tick wait) and a concrete all-fail run (aggregated error wrapping the
last error). -/
theorem FetchWithRetry_contract_witness :
    FetchWithRetry (fun i => if i = 0 then ([], some (.simple "e1")) else ([9], none))
        ⟨none, .simple "c"⟩ ⟨3, 1, 5⟩ =
      ⟨some [9], none, 2, [1]⟩ ∧
    FetchWithRetry (fun _ => ([], some (.simple "e")))
        ⟨none, .simple "c"⟩ ⟨2, 1, 5⟩ =
      ⟨none, some (.wrapped ("请求失败(已重试 " ++ toString (2 : Int) ++ " 次)")
        (.simple "e")), 2, [1]⟩ := by
  constructor
  · have h := (FetchWithRetry_contract
      (fun i => if i = 0 then ([], some (.simple "e1")) else ([9], none))
      ⟨none, .simple "c"⟩ ⟨3, 1, 5⟩ rfl).1 2 (by decide) (by decide)
      (fun i hi => by
        have h0 : i = 0 := by omega
        subst h0
        decide)
      (by decide) (by decide)
    rw [h]
    decide
  · have h := (FetchWithRetry_contract (fun _ => ([], some (.simple "e")))
      ⟨none, .simple "c"⟩ ⟨2, 1, 5⟩ rfl).2 (by decide)
      (fun i _ => by decide)
    rw [h]
    decide

/-- C7: if the operation keeps failing and the caller's context fires
during the backoff wait that follows 0-based attempt `k` (with a further
attempt still allowed by the configuration), `FetchWithRetry` aborts the
wait: it performs exactly the `k + 1` invocations made so far and no more,
sleeps only the `k` earlier backoffs to completion, and returns the
cancellation error wrapping `ctx.Err()` — not the last operation error. -/
theorem FetchWithRetry_cancel_during_backoff :
    ∀ (op : Nat → Bytes × Option GoError) (cfg : RetryConfig) (t : Nat)
      (cerr : GoError) (k : Nat),
      ((k : Int) + 1) < cfg.maxRetries →
      (∀ i, i ≤ k → ¬((op i).2 = none ∧ 0 < (op i).1.length)) →
      elapsedBefore cfg k ≤ t →
      t < elapsedBefore cfg k + backoffDelay cfg k →
      FetchWithRetry op ⟨some t, cerr⟩ cfg =
        ⟨none, some (.wrapped "请求被取消" cerr), k + 1,
         (List.range k).map (backoffDelay cfg)⟩ := by
  intro op cfg t cerr k hk hfail hlo hhi
  rw [elapsedBefore_eq_sumBackoff] at hlo hhi
  have hk' : k + 1 < cfg.maxRetries.toNat := by omega
  have h := FetchWithRetryAux_cancel op cfg t cerr k
    cfg.maxRetries.toNat 0 0 none hk'
    (fun i hi => by rw [Nat.zero_add]; exact hfail i hi)
    (by rw [Nat.zero_add]; exact hlo)
    (by rw [Nat.zero_add, Nat.zero_add]; exact hhi)
  rw [FetchWithRetry, h, backoff_zero_add]

/-- Witness for C7: the context fires at t = 0, inside the first backoff
window; the call stops after a single invocation with the cancellation
error. -/
theorem FetchWithRetry_cancel_during_backoff_witness :
    FetchWithRetry (fun _ => ([], some (.simple "net")))
        ⟨some 0, .simple "context canceled"⟩ ⟨3, 1, 5⟩ =
      ⟨none, some (.wrapped "请求被取消" (.simple "context canceled")), 1, []⟩ := by
  have h := FetchWithRetry_cancel_during_backoff
    (fun _ => ([], some (.simple "net"))) ⟨3, 1, 5⟩ 0 (.simple "context canceled") 0
    (by decide) (fun i hi => by
      have h0 : i = 0 := by omega
      subst h0
      decide)
    (by decide) (by decide)
  rw [h]
  decide
